import Mathlib

/-!
Shallow embedding of the UdonSharp linter language server
(`vscode-udonsharp-linter`): policy-pack loading and severity resolution,
the configuration resolver, the network-event analyzer with its
syntax-only fallback, the runtime-restriction analyzer, the diagnostics
pipeline, and the custom JSON-RPC method table. Definitions mirror the
C# sources; theorems settle the specification claims against them.
-/

namespace UdonSharpLinter

/-- Roslyn `DiagnosticSeverity` values used by the server. -/
inductive DiagnosticSeverity where
  | error
  | warning
  | info
  | hidden
deriving DecidableEq, Repr

/-- Roslyn `ReportDiagnostic` values targeted by `SeverityMapper`. -/
inductive ReportDiagnostic where
  | reportError
  | reportWarn
  | reportInfo
  | reportHidden
  | reportSuppress
  | reportDefault
deriving DecidableEq, Repr

/-- Lower-casing as `ToLowerInvariant` performs it, written over the
character list so the kernel can evaluate it on literals. -/
def strLower (s : String) : String :=
  ⟨s.data.map Char.toLower⟩

/-- Whitespace as `string.Trim` strips it (the ASCII subset relevant to
type-name syntax). -/
def isWhitespaceChar (c : Char) : Bool :=
  c == ' ' || c == '\t' || c == '\n' || c == '\r'

/-- `string.Trim`, over the character list. -/
def strTrim (s : String) : String :=
  ⟨((s.data.dropWhile isWhitespaceChar).reverse.dropWhile isWhitespaceChar).reverse⟩

/-- `string.StartsWith` with ordinal comparison, over the character list. -/
def strStartsWith (s pat : String) : Bool :=
  s.data.take pat.data.length == pat.data

/-- `string.Substring(n)` (dropping `n` leading characters), over the
character list. -/
def strDrop (s : String) (n : Nat) : String :=
  ⟨s.data.drop n⟩

/-- The segment after the last dot (the whole string when it has no
dot), as `LastIndexOf('.')` plus `Substring` compute it. -/
def lastDotSegment (s : String) : String :=
  ⟨(s.data.reverse.takeWhile (fun c => !(c == '.'))).reverse⟩

/-- `string.IsNullOrEmpty` on a present string. -/
def strIsEmpty (s : String) : Bool :=
  s.data.isEmpty

/-- Case-sensitive association-list lookup, the behaviour of a C#
`Dictionary` with its default ordinal comparer. -/
def lookupOrd {α : Type} (m : List (String × α)) (k : String) : Option α :=
  (m.find? (fun p => p.fst == k)).map Prod.snd

/-- Case-insensitive association-list lookup, the behaviour of a C#
dictionary built with `StringComparer.OrdinalIgnoreCase`. -/
def lookupCI {α : Type} (m : List (String × α)) (k : String) : Option α :=
  (m.find? (fun p => strLower p.fst == strLower k)).map Prod.snd

/-- Case-insensitive insert-or-replace, the behaviour of the C# indexer
`builder[key] = value` on an `OrdinalIgnoreCase` dictionary: an existing
entry keeps its stored key and gets the new value. -/
def upsertCI {α : Type} (m : List (String × α)) (k : String) (v : α) : List (String × α) :=
  match m with
  | [] => [(k, v)]
  | (k0, v0) :: rest =>
      if strLower k0 == strLower k then (k0, v) :: rest
      else (k0, v0) :: upsertCI rest k v

/-- `PolicyRuleDefinition.ToSeverity`: wire-form severity strings
normalised (via `ToLowerInvariant`) to the four Roslyn severities. -/
def toSeverity (severity : String) : DiagnosticSeverity :=
  match strLower severity with
  | "error" => .error
  | "warn" => .warning
  | "warning" => .warning
  | "info" => .info
  | "information" => .info
  | "hidden" => .hidden
  | "off" => .hidden
  | _ => .warning

/-- `PolicyRuleDefinition`: one rule of the merged policy catalogue.
`ProfileSeverities` is a dictionary built with `OrdinalIgnoreCase`;
`Documentation` maps locale to field-to-string maps. -/
structure PolicyRuleDefinition where
  Id : String
  Title : String
  Message : String
  Category : String
  DefaultSeverity : String
  HelpUri : Option String := none
  HasCodeFix : Bool := false
  ProfileSeverities : Option (List (String × String)) := none
  Documentation : Option (List (String × List (String × String))) := none
deriving DecidableEq, Repr

/-- `PolicyRuleDefinition.GetSeverity`: user override for the ID first
(case-sensitive dictionary lookup), then the rule's profile map
(case-insensitive), then the rule default. -/
def PolicyRuleDefinition.GetSeverity (rule : PolicyRuleDefinition)
    (profile : String) (overrides : List (String × String)) : DiagnosticSeverity :=
  match lookupOrd overrides rule.Id with
  | some overrideSeverity => toSeverity overrideSeverity
  | none =>
      match rule.ProfileSeverities with
      | some profiles =>
          match lookupCI profiles profile with
          | some profileSeverity => toSeverity profileSeverity
          | none => toSeverity rule.DefaultSeverity
      | none => toSeverity rule.DefaultSeverity

/-- `LinterSettings`: the immutable settings snapshot. -/
structure LinterSettings where
  Profile : String
  RuleOverrides : List (String × String)
  UnityApiSurface : String
  CustomStubPath : Option String
  AllowRefOut : Bool
  CodeActionsEnabled : Bool
  Telemetry : String
  PolicyPackPaths : List String
deriving DecidableEq, Repr

/-- `LinterSettings.Default`. -/
def LinterSettings.Default : LinterSettings :=
  { Profile := "latest"
  , RuleOverrides := []
  , UnityApiSurface := "bundled-stubs"
  , CustomStubPath := none
  , AllowRefOut := false
  , CodeActionsEnabled := true
  , Telemetry := "minimal"
  , PolicyPackPaths := [] }

/-- The merged policy catalogue: the `OrdinalIgnoreCase` map ID to
definition held by `PolicyRepository`. -/
abbrev PolicyCatalogue : Type := List (String × PolicyRuleDefinition)

/-- `PolicyRepository.GetSeverity`: resolve through the rule when the ID
is in the catalogue, otherwise `DiagnosticSeverity.Warning`. -/
def PolicyRepository.GetSeverity (rules : PolicyCatalogue) (id : String)
    (settings : LinterSettings) : DiagnosticSeverity :=
  match lookupCI rules id with
  | some rule => rule.GetSeverity settings.Profile settings.RuleOverrides
  | none => .warning

/-- `SeverityMapper.ToReportDiagnostic`. -/
def SeverityMapper.ToReportDiagnostic (severity : DiagnosticSeverity) : ReportDiagnostic :=
  match severity with
  | .error => .reportError
  | .warning => .reportWarn
  | .info => .reportInfo
  | .hidden => .reportHidden

/-- JSON values as seen through `System.Text.Json.JsonDocument`. -/
inductive Json where
  | str (s : String)
  | bool (b : Bool)
  | num (n : Int)
  | null
  | arr (elems : List Json)
  | obj (fields : List (String × Json))

/-- `JsonElement.TryGetProperty`: case-sensitive property lookup on an
object element (callers check the element is an object first). -/
def Json.getProp (element : Json) (name : String) : Option Json :=
  match element with
  | .obj fields => lookupOrd fields name
  | _ => none

/-- `JsonElement.GetString`: the string of a string element, `none` for a
JSON null, and a thrown `InvalidOperationException` (modelled as
`Except.error`) for every other value kind. -/
def Json.getString : Json → Except Unit (Option String)
  | .str s => .ok (some s)
  | .null => .ok none
  | _ => .error ()

/-- `JsonElement.GetProperty(name).GetString()`: a missing property
throws `KeyNotFoundException`; a present one is read with `GetString`
and the C# `?? fallback` applied to its null case. -/
def Json.getRequiredStringOr (element : Json) (name fallback : String) : Except Unit String :=
  match element.getProp name with
  | none => .error ()
  | some v =>
      match v.getString with
      | .error _ => .error ()
      | .ok none => .ok fallback
      | .ok (some s) => .ok s

/-- True when two keys of the list collide under `OrdinalIgnoreCase`;
`ToDictionary` with that comparer throws on such input. -/
def hasDupKeysCI (pairs : List (String × String)) : Bool :=
  match pairs with
  | [] => false
  | (k, _) :: rest => rest.any (fun p => strLower p.fst == strLower k) || hasDupKeysCI rest

/-- The `profiles` object of a rule entry: string-valued properties kept
(`Where ValueKind == String`), collected into an `OrdinalIgnoreCase`
dictionary by `ToDictionary`, which throws on duplicate keys. -/
def parseProfiles (fields : List (String × Json)) : Except Unit (List (String × String)) :=
  let entries := fields.filterMap (fun p =>
    match p.snd with
    | .str s => some (p.fst, s)
    | _ => none)
  if hasDupKeysCI entries then .error () else .ok entries

/-- The `documentation` object: locale entries that are objects, each
reduced to its string-valued fields; both levels are built with the
dictionary indexer, so later duplicates overwrite earlier ones. -/
def parseDocumentation (fields : List (String × Json)) :
    List (String × List (String × String)) :=
  fields.foldl (fun acc localeEntry =>
    match localeEntry.snd with
    | .obj docFields =>
        let localeDict := docFields.foldl (fun dict docField =>
          match docField.snd with
          | .str s => upsertCI dict docField.fst s
          | _ => dict) []
        upsertCI acc localeEntry.fst localeDict
    | _ => acc) []

/-- `PolicyPackLoader.TryParseRule`. `Except.error` models an exception
escaping to the per-file catch in `Load`; `.ok none` models the
`return false` that skips just this entry. -/
def TryParseRule (element : Json) : Except Unit (Option PolicyRuleDefinition) :=
  match element with
  | .obj _ =>
      match element.getProp "id" with
      | none => .ok none
      | some idElement =>
          match idElement.getString with
          | .error _ => .error ()
          | .ok none => .ok none
          | .ok (some id) =>
              if id.length == 0 then .ok none
              else
                match element.getRequiredStringOr "title" id with
                | .error _ => .error ()
                | .ok title =>
                match element.getRequiredStringOr "message" "" with
                | .error _ => .error ()
                | .ok message =>
                match element.getRequiredStringOr "category" "General" with
                | .error _ => .error ()
                | .ok category =>
                match element.getRequiredStringOr "defaultSeverity" "warn" with
                | .error _ => .error ()
                | .ok severity =>
                match (match element.getProp "helpUri" with
                       | none => .ok none
                       | some v => v.getString : Except Unit (Option String)) with
                | .error _ => .error ()
                | .ok helpUri =>
                match (match element.getProp "hasCodeFix" with
                       | none => .ok false
                       | some (.bool b) => .ok b
                       | some _ => .error () : Except Unit Bool) with
                | .error _ => .error ()
                | .ok hasCodeFix =>
                match (match element.getProp "profiles" with
                       | some (.obj profileFields) =>
                           (parseProfiles profileFields).map some
                       | _ => .ok none : Except Unit (Option (List (String × String)))) with
                | .error _ => .error ()
                | .ok profileSeverities =>
                  let documentation :=
                    match element.getProp "documentation" with
                    | some (.obj docFields) => some (parseDocumentation docFields)
                    | _ => none
                  .ok (some
                    { Id := id
                    , Title := title
                    , Message := message
                    , Category := category
                    , DefaultSeverity := severity
                    , HelpUri := helpUri
                    , HasCodeFix := hasCodeFix
                    , ProfileSeverities := profileSeverities
                    , Documentation := documentation })
  | _ => .ok none

/-- The `foreach` over a file's `rules` array in `PolicyPackLoader.Load`:
parsed entries are upserted by ID (last wins, `OrdinalIgnoreCase`
builder); a thrown exception aborts the loop, keeping what was already
added; a `false` return skips the single entry. -/
def loadRules (builder : List (String × PolicyRuleDefinition)) :
    List Json → List (String × PolicyRuleDefinition)
  | [] => builder
  | element :: rest =>
      match TryParseRule element with
      | .error _ => builder
      | .ok none => loadRules builder rest
      | .ok (some rule) => loadRules (upsertCI builder rule.Id rule) rest

/-- One file body inside `PolicyPackLoader.Load`: a root without a
`rules` property is skipped; a non-array `rules` value (and a non-object
root) throws and is caught, leaving the builder as it was. -/
def loadPackFile (builder : List (String × PolicyRuleDefinition)) (doc : Json) :
    List (String × PolicyRuleDefinition) :=
  match doc with
  | .obj fields =>
      match lookupOrd fields "rules" with
      | some (.arr rules) => loadRules builder rules
      | some _ => builder
      | none => builder
  | _ => builder

/-- `PolicyPackLoader.Load` over the enumerated files, each given as the
parse result of its contents (`none` models an I/O or parse failure,
which is logged and skipped). -/
def PolicyPackLoader.Load (files : List (Option Json)) : List (String × PolicyRuleDefinition) :=
  files.foldl (fun builder file =>
    match file with
    | some doc => loadPackFile builder doc
    | none => builder) []

/-- `JsonElementExtensions.GetPropertyOrDefault` for strings: the value
when the property exists and is a string, else the default. -/
def getPropertyOrDefaultString (element : Json) (propertyName defaultValue : String) : String :=
  match element.getProp propertyName with
  | some (.str s) => s
  | _ => defaultValue

/-- `JsonElementExtensions.GetPropertyOrDefault` for booleans. -/
def getPropertyOrDefaultBool (element : Json) (propertyName : String) (defaultValue : Bool) : Bool :=
  match element.getProp propertyName with
  | some (.bool b) => b
  | _ => defaultValue

/-- Fields of a JSON object read as string-to-string pairs, keys kept as
written; a non-string value throws `JsonException` (JSON null values
inside the object are not modelled). -/
def stringMapFields : List (String × Json) → Except Unit (List (String × String))
  | [] => .ok []
  | (k, .str s) :: rest => (stringMapFields rest).map (fun tail => (k, s) :: tail)
  | _ :: _ => .error ()

/-- Elements of a JSON array read as strings; a non-string element
throws `JsonException`. -/
def stringListElems : List Json → Except Unit (List String)
  | [] => .ok []
  | .str s :: rest => (stringListElems rest).map (fun tail => s :: tail)
  | _ :: _ => .error ()

/-- `JsonSerializer.Deserialize<Dictionary<string,string>>` on a
property value: a JSON null yields the C# null (replaced by an empty
dictionary via the `??` in the caller); an object of string-valued
fields yields those pairs with keys unmodified; anything else throws. -/
def deserializeStringMap : Json → Except Unit (Option (List (String × String)))
  | .null => .ok none
  | .obj fields => (stringMapFields fields).map some
  | _ => .error ()

/-- `JsonSerializer.Deserialize<List<string>>` on a property value. -/
def deserializeStringList : Json → Except Unit (Option (List String))
  | .null => .ok none
  | .arr elems => (stringListElems elems).map some
  | _ => .error ()

/-- `SettingsProvider.Deserialize`: read each settings field with its
default; the rule-override keys are stored exactly as they appear in
the payload; any deserialization exception yields `none`. -/
def SettingsProvider.Deserialize (element : Json) : Option LinterSettings :=
  let ruleOverridesResult :=
    match element.getProp "ruleOverrides" with
    | some v => deserializeStringMap v
    | none => .ok (some [])
  let policyPackPathsResult :=
    match element.getProp "policyPackPaths" with
    | some v => deserializeStringList v
    | none => .ok (some [])
  match ruleOverridesResult, policyPackPathsResult with
  | .ok overrides, .ok paths =>
      some
        { Profile := getPropertyOrDefaultString element "profile" "latest"
        , RuleOverrides := overrides.getD []
        , UnityApiSurface := getPropertyOrDefaultString element "unityApiSurface" "bundled-stubs"
        , CustomStubPath :=
            match element.getProp "customStubPath" with
            | some (.str s) => some s
            | _ => none
        , AllowRefOut := getPropertyOrDefaultBool element "allowRefOut" false
        , CodeActionsEnabled := getPropertyOrDefaultBool element "codeActionsEnabled" true
        , Telemetry := getPropertyOrDefaultString element "telemetry" "minimal"
        , PolicyPackPaths := paths.getD [] }
  | _, _ => none

/-- `SettingsProvider.Update(JsonElement)`: only object payloads replace
the snapshot; a failed deserialization falls back to the defaults. -/
def SettingsProvider.Update (current : LinterSettings) (element : Json) : LinterSettings :=
  match element with
  | .obj _ => (SettingsProvider.Deserialize element).getD LinterSettings.Default
  | _ => current

/-- A diagnostic reported by an analyzer callback: the rule ID plus the
argument index passed as the first message argument of USH0005 (zero for
every other rule, matching the whole-call report). Locations and message
text are not modelled. -/
structure ReportedDiag where
  Rule : String
  Arg : Nat := 0
deriving DecidableEq, Repr

/-- True when a diagnostic with the given rule ID was reported. -/
def hasRule (diags : List ReportedDiag) (id : String) : Bool :=
  diags.any (fun d => d.Rule == id)

/-- The `CustomEventMethodNames` set of `UshNetworkEventAnalyzer`. -/
def CustomEventMethodNames : List String :=
  ["SendCustomEvent", "SendCustomEventDelayedFrames", "SendCustomEventDelayedSeconds"]

/-- The `NetworkEventMethodNames` set of `UshNetworkEventAnalyzer`. -/
def NetworkEventMethodNames : List String :=
  ["SendCustomNetworkEvent", "SendCustomNetworkEventDelayedFrames",
   "SendCustomNetworkEventDelayedSeconds"]

/-- `UshNetworkEventAnalyzer.SyntaxMethodCandidate`: the syntactic facts
collected from one method declaration (`FindCandidateMethodsBySyntax`). -/
structure SyntaxMethodCandidate where
  Name : String
  IsPublic : Bool
  HasNetworkCallable : Bool
  ParameterTypes : List String
deriving DecidableEq, Repr

/-- A `TypeDeclarationSyntax` as the fallback path reads it: its
identifier, its method declarations, and the sync-mode name extracted by
`GetBehaviourSyncModeNameFromSyntax` (when the attribute is present). -/
structure TypeDeclModel where
  Identifier : String
  Methods : List SyntaxMethodCandidate
  SyncModeName : Option String := none
deriving DecidableEq, Repr

/-- `UshAnalyzerUtilities.FindTypeDeclarationInSameDocument`: the first
type declaration of the document whose identifier matches exactly. -/
def FindTypeDeclarationInSameDocument (docTypes : List TypeDeclModel)
    (simpleTypeName : String) : Option TypeDeclModel :=
  docTypes.find? (fun t => t.Identifier == simpleTypeName)

/-- `UshNetworkEventAnalyzer.ExtractSimpleTypeName`: trim, drop a
`global::` prefix, and keep the segment after the last dot. -/
def ExtractSimpleTypeName (qualifiedName : String) : String :=
  let text := strTrim qualifiedName
  let text := if strStartsWith text "global::" then strDrop text 8 else text
  lastDotSegment text

/-- `UshNetworkEventAnalyzer.TypeNamesCompatibleNormalized.Normalize`:
trim, drop `global::`, and rewrite `System.*` primitive names to their
keyword forms. -/
def normalizeTypeName (text : String) : String :=
  let trimmed := strTrim text
  let trimmed := if strStartsWith trimmed "global::" then strDrop trimmed 8 else trimmed
  match trimmed with
  | "System.Int32" => "int"
  | "System.Int64" => "long"
  | "System.UInt32" => "uint"
  | "System.UInt64" => "ulong"
  | "System.Single" => "float"
  | "System.Double" => "double"
  | "System.Decimal" => "decimal"
  | "System.String" => "string"
  | _ => trimmed

/-- `UshNetworkEventAnalyzer.IsNumericAlias`. -/
def IsNumericAlias (value : String) : Bool :=
  value == "sbyte" || value == "byte" || value == "short" || value == "ushort" ||
  value == "int" || value == "uint" || value == "long" || value == "ulong" ||
  value == "float" || value == "double" || value == "decimal"

/-- `UshNetworkEventAnalyzer.TypeNamesCompatibleNormalized`: null
arguments always pass, numeric primitives are mutually compatible, and
otherwise the normalised names must match exactly. -/
def TypeNamesCompatibleNormalized (parameterType argumentType : String) : Bool :=
  let normalizedParameter := normalizeTypeName parameterType
  let normalizedArgument := normalizeTypeName argumentType
  if normalizedArgument == "null" then true
  else if IsNumericAlias normalizedParameter && IsNumericAlias normalizedArgument then true
  else normalizedParameter == normalizedArgument

/-- `UshNetworkEventAnalyzer.PayloadMatchesTypesSyntaxOnly`: walk the
candidate's parameter types against the classified payload argument
types; an argument whose type cannot be classified ends the walk as a
match, a classified mismatch fails it. -/
def PayloadMatchesTypesSyntaxOnly :
    List (Option String) → List String → Bool
  | _, [] => true
  | [], _ :: _ => true
  | none :: _, _ :: _ => true
  | some argumentType :: restArgs, parameterType :: restParams =>
      TypeNamesCompatibleNormalized parameterType argumentType &&
      PayloadMatchesTypesSyntaxOnly restArgs restParams

/-- The per-argument loop of the USH0005 fallback report: the 1-based
index of the first classified payload argument incompatible with the
first arity-matching candidate, stopping silently at the first
unclassifiable argument. -/
def firstMismatchIndex (startIndex : Nat) :
    List (Option String) → List String → Option Nat
  | _, [] => none
  | [], _ :: _ => none
  | none :: _, _ :: _ => none
  | some argumentType :: restArgs, parameterType :: restParams =>
      if TypeNamesCompatibleNormalized parameterType argumentType then
        firstMismatchIndex (startIndex + 1) restArgs restParams
      else
        some startIndex

/-- The syntactic surroundings of one event invocation, as the fallback
path queries them: the document's type declarations, the type name named
by a `nameof(X.Y)` argument, the declared type of the receiver's
left-most identifier (when the callee is a member access and
`FindTypeNameOfIdentifierInSameDocument` found one), the enclosing type
declaration, the argument count, and the `ClassifyArgumentTypeName`
result for each payload argument. -/
structure SyntaxOnlyContext where
  DocTypes : List TypeDeclModel
  NameofTypeName : Option String := none
  ReceiverTypeName : Option String := none
  EnclosingType : Option TypeDeclModel := none
  ArgumentCount : Nat := 0
  PayloadArgTypes : List (Option String) := []
deriving Repr

/-- The target-type resolution chain at the top of
`TryAnalyzeEventsSyntaxOnly`: the `nameof`-declared type looked up in
the document, else the receiver identifier's declared type reduced to a
simple name and looked up, else the invocation's enclosing type. -/
def resolveSyntaxTargetType (ctx : SyntaxOnlyContext) : Option TypeDeclModel :=
  let fromNameof :=
    match ctx.NameofTypeName with
    | some typeFromNameof => FindTypeDeclarationInSameDocument ctx.DocTypes typeFromNameof
    | none => none
  let fromReceiver :=
    match fromNameof with
    | some t => some t
    | none =>
        match ctx.ReceiverTypeName with
        | some typeName =>
            FindTypeDeclarationInSameDocument ctx.DocTypes (ExtractSimpleTypeName typeName)
        | none => none
  match fromReceiver with
  | some t => some t
  | none => ctx.EnclosingType

/-- The network-only checks of `TryAnalyzeEventsSyntaxOnly` (USH0003,
USH0004, USH0005, USH0006), in report order. In the USH0005 check the
payload count is the argument count minus the two leading arguments. -/
def syntaxOnlyNetworkChecks (ctx : SyntaxOnlyContext) (targetType : TypeDeclModel)
    (candidates : List SyntaxMethodCandidate) (methodName : String) : List ReportedDiag :=
  (if strStartsWith methodName "_" then [{ Rule := "USH0003" }] else []) ++
  (if ctx.ArgumentCount > 2 && !(candidates.any (fun c => c.HasNetworkCallable)) then
     [{ Rule := "USH0004" }]
   else []) ++
  (if ctx.ArgumentCount > 2 then
     match candidates.filter (fun c => c.ParameterTypes.length == ctx.ArgumentCount - 2) with
     | [] => [{ Rule := "USH0005", Arg := 0 }]
     | first :: rest =>
         if (first :: rest).any
             (fun c => PayloadMatchesTypesSyntaxOnly ctx.PayloadArgTypes c.ParameterTypes) then
           []
         else
           match firstMismatchIndex 1 ctx.PayloadArgTypes first.ParameterTypes with
           | some index => [{ Rule := "USH0005", Arg := index }]
           | none => []
   else []) ++
  (if targetType.SyncModeName == some "None" then [{ Rule := "USH0006" }] else [])

/-- `UshNetworkEventAnalyzer.TryAnalyzeEventsSyntaxOnly`: `false` with no
reports when the method name is empty or no target type can be
identified; otherwise the existence and accessibility reports over the
syntactic candidates (the type's method declarations of that name),
followed by the network checks, returning `true`. -/
def TryAnalyzeEventsSyntaxOnly (ctx : SyntaxOnlyContext) (methodName : String)
    (isNetworkEvent : Bool) : Bool × List ReportedDiag :=
  if strIsEmpty methodName then (false, [])
  else
    match resolveSyntaxTargetType ctx with
    | none => (false, [])
    | some targetType =>
        (true,
          (if (targetType.Methods.filter (fun m => m.Name == methodName)).isEmpty then
             [{ Rule := "USH0001" : ReportedDiag }]
           else if !((targetType.Methods.filter (fun m => m.Name == methodName)).any
               (fun c => c.IsPublic)) then
             [{ Rule := "USH0002" : ReportedDiag }]
           else []) ++
          (if isNetworkEvent then
             syntaxOnlyNetworkChecks ctx targetType
               (targetType.Methods.filter (fun m => m.Name == methodName)) methodName
           else []))

/-- A method symbol as the semantic arm consumes it: declared name and
accessibility, the `NetworkCallable` check, the parameter count, and the
`ClassifyConversion` verdict (identity or implicit) for each payload
argument of the analysed call against this method's parameters. -/
structure SemanticMethodModel where
  Name : String
  IsPublic : Bool
  HasNetworkCallableAttr : Bool
  ParamCount : Nat
  PayloadConvOk : List Bool := []
deriving DecidableEq, Repr

/-- A named type symbol as the semantic arm consumes it: the
`IsUdonSharpBehaviour` verdict, the methods found by
`GetBehaviourMethods` walking the base chain, and the
`IsBehaviourSyncMode(…, "None")` verdict. -/
structure BehaviourModel where
  Name : String
  IsUdon : Bool
  Methods : List SemanticMethodModel
  SyncModeIsNone : Bool := false
deriving DecidableEq, Repr

/-- The semantic-model answers consulted by
`UshNetworkEventAnalyzer.AnalyzeInvocation` for one invocation. -/
structure InvocationContext where
  InvokedName : String
  ArgumentCount : Nat
  EventArgIsStringLiteral : Bool
  EventTarget : Option String := none
  ResolvedMethod : Option SemanticMethodModel := none
  ResolvedMethodBehaviour : Option BehaviourModel := none
  TargetBehaviour : Option BehaviourModel := none
  ConstantFallbackName : Option String := none
  SyntaxCtx : SyntaxOnlyContext
deriving Repr

/-- The position of the first `false` in the per-argument conversion
verdicts, i.e. the first payload argument with neither an identity nor
an implicit conversion to the candidate's parameter type. -/
def firstConvFailure (startIndex : Nat) : List Bool → Option Nat
  | [] => none
  | true :: rest => firstConvFailure (startIndex + 1) rest
  | false :: _ => some startIndex

/-- The semantic network-only validations (`ValidateNetworkNaming`,
`ValidateNetworkCallableAttribute`, `ValidateNetworkParameterTypes`,
`ValidateNetworkSyncMode`), in report order. -/
def semanticNetworkChecks (ctx : InvocationContext) (behaviour : BehaviourModel)
    (candidates : List SemanticMethodModel) (targetName : String) : List ReportedDiag :=
  let d3 := if strStartsWith targetName "_" then [{ Rule := "USH0003" }] else []
  let d4 :=
    if ctx.ArgumentCount > 2 then
      if candidates.isEmpty then []
      else if candidates.any (fun m => m.HasNetworkCallableAttr) then []
      else [{ Rule := "USH0004" }]
    else []
  let d5 :=
    if ctx.ArgumentCount > 2 then
      let payloadCount := ctx.ArgumentCount - 2
      match candidates.find? (fun m => m.ParamCount == payloadCount) with
      | none => [{ Rule := "USH0005", Arg := 0 }]
      | some candidate =>
          match firstConvFailure 1 candidate.PayloadConvOk with
          | some index => [{ Rule := "USH0005", Arg := index }]
          | none => []
    else []
  let d6 := if behaviour.SyncModeIsNone then [{ Rule := "USH0006" }] else []
  d3 ++ d4 ++ d5 ++ d6

/-- The semantic arm of `AnalyzeInvocation` once an UdonSharp target
behaviour is known: refine the behaviour through the resolved method's
containing type, collect the candidate methods (base-chain methods of
the target name plus the resolved symbol when it lives on the target),
then existence, accessibility, the network checks, and the USH0043
string-literal advisory. -/
def analyzeSemanticArm (ctx : InvocationContext) (targetBehaviour : BehaviourModel)
    (targetName : String) (isNetworkEvent : Bool) : List ReportedDiag :=
  let behaviour :=
    match ctx.ResolvedMethodBehaviour with
    | some resolvedContaining =>
        if resolvedContaining.IsUdon then resolvedContaining else targetBehaviour
    | none => targetBehaviour
  let fromType := behaviour.Methods.filter (fun m => m.Name == targetName)
  let candidates :=
    match ctx.ResolvedMethod, ctx.ResolvedMethodBehaviour with
    | some resolvedMethod, some resolvedContaining =>
        if resolvedContaining == behaviour && !(fromType.contains resolvedMethod) then
          fromType ++ [resolvedMethod]
        else fromType
    | _, _ => fromType
  let d1 := if candidates.isEmpty then [{ Rule := "USH0001" : ReportedDiag }] else []
  let d2 :=
    if candidates.any (fun m => !m.IsPublic) then [{ Rule := "USH0002" : ReportedDiag }]
    else []
  let dNetwork :=
    if isNetworkEvent then semanticNetworkChecks ctx behaviour candidates targetName
    else []
  let d43 :=
    if ctx.EventArgIsStringLiteral then [{ Rule := "USH0043" : ReportedDiag }] else []
  d1 ++ d2 ++ dNetwork ++ d43

/-- `UshNetworkEventAnalyzer.AnalyzeInvocation` (the fallback-enabled
version registered by the analyzer): event identification, event-name
resolution, then either a fallback run (with the USH0043 advisory wired
to the string-literal check of each entry point) or the semantic arm. -/
def AnalyzeInvocation (ctx : InvocationContext) : List ReportedDiag :=
  let isCustomEvent := CustomEventMethodNames.contains ctx.InvokedName
  let isNetworkEvent := NetworkEventMethodNames.contains ctx.InvokedName
  if !(isCustomEvent || isNetworkEvent) then []
  else if ctx.ArgumentCount == 0 then []
  else
    let eventArgumentIndex := if isNetworkEvent then 1 else 0
    if ctx.ArgumentCount ≤ eventArgumentIndex then []
    else
      match ctx.EventTarget with
      | none =>
          let d43 :=
            if ctx.EventArgIsStringLiteral then [{ Rule := "USH0043" : ReportedDiag }] else []
          let fallbackMethodName := (ctx.ConstantFallbackName).getD ""
          d43 ++ (TryAnalyzeEventsSyntaxOnly ctx.SyntaxCtx fallbackMethodName isNetworkEvent).snd
      | some targetName =>
          let semanticTarget :=
            match ctx.TargetBehaviour with
            | some behaviour => if behaviour.IsUdon then some behaviour else none
            | none => none
          match semanticTarget with
          | none =>
              let result := TryAnalyzeEventsSyntaxOnly ctx.SyntaxCtx targetName isNetworkEvent
              let d43 :=
                if result.fst && ctx.EventArgIsStringLiteral then
                  [{ Rule := "USH0043" : ReportedDiag }]
                else []
              result.snd ++ d43
          | some behaviour => analyzeSemanticArm ctx behaviour targetName isNetworkEvent

/-- The syntax-node kinds `UshRuntimeRestrictionAnalyzer.Initialize`
subscribes to. -/
inductive RuntimeNodeKind where
  | methodDeclaration
  | invocationExpression
  | isExpression
  | asExpression
  | tryStatement
  | throwStatement
  | throwExpression
deriving DecidableEq, Repr

/-- A syntax node handed to `UshRuntimeRestrictionAnalyzer`, together
with the enclosing-type predicate (whether the node sits inside an
UdonSharp script) so theorems can relate the two. -/
structure RuntimeNode where
  Kind : RuntimeNodeKind
  InUdonSharpScript : Bool
deriving DecidableEq, Repr

/-- The registered callbacks `AnalyzeIsExpression`, `AnalyzeAsExpression`,
`AnalyzeTryStatement`, `AnalyzeThrowStatement` and
`AnalyzeThrowExpression` of `UshRuntimeRestrictionAnalyzer`: each one
reports its rule unconditionally on the node it was registered for. The
USH0016 and USH0017 handlers (method declarations and invocations) are
not modelled here and contribute no report. -/
def runtimeRestrictionNodeDiags (node : RuntimeNode) : List ReportedDiag :=
  match node.Kind with
  | .isExpression => [{ Rule := "USH0018" }]
  | .asExpression => [{ Rule := "USH0019" }]
  | .tryStatement => [{ Rule := "USH0020" }]
  | .throwStatement => [{ Rule := "USH0021" }]
  | .throwExpression => [{ Rule := "USH0021" }]
  | .methodDeclaration => []
  | .invocationExpression => []

/-- A run of `UshRuntimeRestrictionAnalyzer` over a document: the union
of the per-node callback reports. -/
def runtimeRestrictionAnalyzeDocument (doc : List RuntimeNode) : List ReportedDiag :=
  doc.foldr (fun node acc => runtimeRestrictionNodeDiags node ++ acc) []

/-- A Roslyn diagnostic inside the analysis pipeline: rule ID, effective
severity, and source location (`none` models `Location.None`). -/
structure Diag where
  Id : String
  Severity : DiagnosticSeverity
  LocationPath : Option String := none
deriving DecidableEq, Repr

/-- `AnalysisService.BuildDiagnosticOptions`: one
`specificDiagnosticOptions` entry per catalogue rule, keyed by the
rule's ID in an `OrdinalIgnoreCase` builder, valued by the resolved
severity mapped through `SeverityMapper`. -/
def BuildDiagnosticOptions (rules : PolicyCatalogue) (settings : LinterSettings) :
    List (String × ReportDiagnostic) :=
  rules.foldl (fun builder entry =>
    upsertCI builder entry.snd.Id
      (SeverityMapper.ToReportDiagnostic
        (PolicyRepository.GetSeverity rules entry.snd.Id settings))) []

/-- Modelled from the spec: the off-the-shelf compiler front-end (§1,
out of scope) applies `specificDiagnosticOptions` to analyzer
diagnostics — `Suppress` removes a diagnostic, `Default` keeps its
declared severity, any other option replaces the effective severity;
rules without an option are untouched. -/
def applyDiagnosticOptions (options : List (String × ReportDiagnostic))
    (diags : List Diag) : List Diag :=
  diags.filterMap (fun d =>
    match lookupCI options d.Id with
    | some .reportSuppress => none
    | some .reportDefault => some d
    | some .reportError => some { d with Severity := .error }
    | some .reportWarn => some { d with Severity := .warning }
    | some .reportInfo => some { d with Severity := .info }
    | some .reportHidden => some { d with Severity := .hidden }
    | none => some d)

/-- `AnalysisService.AnalyzeDocumentAsync`: run the analyzers under the
per-rule options, then keep diagnostics with no location or located in
the requested document's file. -/
def AnalysisService.AnalyzeDocument (rules : PolicyCatalogue) (settings : LinterSettings)
    (docPath : String) (rawDiags : List Diag) : List Diag :=
  (applyDiagnosticOptions (BuildDiagnosticOptions rules settings) rawDiags).filter
    (fun d => d.LocationPath == none || d.LocationPath == some docPath)

/-- LSP diagnostic severities (wire values 1 to 4). -/
inductive LspSeverity where
  | lspError
  | lspWarning
  | lspInformation
  | lspHint
deriving DecidableEq, Repr

/-- The LSP diagnostic shape produced by the publisher (range and
message omitted from the model). -/
structure LspDiagnostic where
  Code : String
  Severity : LspSeverity
  Source : String
deriving DecidableEq, Repr

/-- `DiagnosticsPublisher.ToLspDiagnostic`: rule ID as `code`, severity
mapped Error to 1, Warning to 2, Info to 3 and Hidden to Hint, source
tag `"UdonSharp"`. -/
def ToLspDiagnostic (d : Diag) : LspDiagnostic :=
  { Code := d.Id
  , Severity :=
      match d.Severity with
      | .error => .lspError
      | .warning => .lspWarning
      | .info => .lspInformation
      | .hidden => .lspHint
  , Source := "UdonSharp" }

/-- `DiagnosticsPublisher.PublishAsync`: the delivered diagnostic set is
the image of the analysis result under `ToLspDiagnostic`. -/
def DiagnosticsPublisher.Publish (diags : List Diag) : List LspDiagnostic :=
  diags.map ToLspDiagnostic

/-- `AnalyzeAndPublishAsync` for one document: analysis under the
current settings, then publication. -/
def publishForDocument (rules : PolicyCatalogue) (settings : LinterSettings)
    (docPath : String) (rawDiags : List Diag) : List LspDiagnostic :=
  DiagnosticsPublisher.Publish (AnalysisService.AnalyzeDocument rules settings docPath rawDiags)

/-- The response shape of `udonsharp/server/status`
(`ServerStatusResponse`). -/
structure ServerStatusResponse where
  Profile : String
  DisabledRuleCount : Nat
  TotalRuleCount : Nat
  ServerVersion : String
deriving DecidableEq, Repr

/-- `ServerStatusHandler.Handle`: profile from the settings, disabled =
rules whose resolved severity is Hidden, total = catalogue size. -/
def ServerStatusHandler.Handle (rules : PolicyCatalogue) (settings : LinterSettings)
    (version : String) : ServerStatusResponse :=
  { Profile := settings.Profile
  , DisabledRuleCount :=
      (rules.filter (fun entry =>
        PolicyRepository.GetSeverity rules entry.snd.Id settings == .hidden)).length
  , TotalRuleCount := rules.length
  , ServerVersion := version }

/-- The custom JSON-RPC methods registered by the server: the `[Method]`
attributes of `RuleListHandler`, `RuleDocumentationHandler` and
`ServerStatusHandler`, the only custom handlers passed to
`LanguageServer.From` in `Program`. -/
def registeredCustomMethods : List String :=
  ["udonsharp/rules/list", "udonsharp/rules/documentation", "udonsharp/server/status"]

/-- The reply to one custom JSON-RPC request. Only the status payload is
modelled; the rules-list and documentation payloads are collapsed. -/
inductive RpcReply where
  | statusReply (response : ServerStatusResponse)
  | otherReply
  | methodNotFound (code : Int)
deriving DecidableEq, Repr

/-- Modelled from the spec: the JSON-RPC layer (out-of-scope wire
transport, §6) routes a request to the handler registered for its
method name and answers a method with no registered handler with the
standard error −32601. Handler registration itself is taken from
`Program` and the `[Method]` attributes. -/
def dispatchCustomRequest (rules : PolicyCatalogue) (settings : LinterSettings)
    (version : String) (method : String) : RpcReply :=
  if method == "udonsharp/server/status" then
    .statusReply (ServerStatusHandler.Handle rules settings version)
  else if registeredCustomMethods.contains method then
    .otherReply
  else
    .methodNotFound (-32601)

/-- True when the published set contains an entry with the given code. -/
def hasCode (diags : List LspDiagnostic) (code : String) : Bool :=
  diags.any (fun d => d.Code == code)

/-- True when `TryParseRule` accepted the entry as a rule definition. -/
def parsedOk (result : Except Unit (Option PolicyRuleDefinition)) : Bool :=
  match result with
  | .ok (some _) => true
  | _ => false

/-- A well-formed rule entry with ID `USHA`. -/
def packRuleJsonA : Json :=
  .obj [("id", .str "USHA"), ("title", .str "Rule A"), ("message", .str "m"),
        ("category", .str "General"), ("defaultSeverity", .str "warn")]

/-- A rule entry with ID `USHB` that is missing the required `title`. -/
def packRuleJsonB : Json :=
  .obj [("id", .str "USHB"), ("message", .str "m"),
        ("category", .str "General"), ("defaultSeverity", .str "warn")]

/-- A well-formed rule entry with ID `USHC`. -/
def packRuleJsonC : Json :=
  .obj [("id", .str "USHC"), ("title", .str "Rule C"), ("message", .str "m"),
        ("category", .str "General"), ("defaultSeverity", .str "error")]

/-- A rule entry with no `id` at all (skipped alone by `TryParseRule`). -/
def packRuleJsonNoId : Json :=
  .obj [("title", .str "No id"), ("message", .str "m"),
        ("category", .str "General"), ("defaultSeverity", .str "warn")]

/-- A policy pack file holding `USHA`, the `title`-less `USHB`, `USHC`. -/
def packFileEx : Json :=
  .obj [("rules", .arr [packRuleJsonA, packRuleJsonB, packRuleJsonC])]

/-- The catalogue definition of USH0043 used by concrete scenarios. -/
def rule0043 : PolicyRuleDefinition :=
  { Id := "USH0043", Title := "Prefer nameof", Message := "m",
    Category := "Network", DefaultSeverity := "info" }

/-- A catalogue holding only USH0043. -/
def catalogue0043 : PolicyCatalogue := [("USH0043", rule0043)]

/-- A severity-resolution example rule with a profile map. -/
def ruleSevEx : PolicyRuleDefinition :=
  { Id := "USH0001", Title := "Target missing", Message := "m",
    Category := "Network", DefaultSeverity := "error",
    ProfileSeverities := some [("legacy_0.x", "warn"), ("strict_experimental", "error")] }

/-- Settings whose override map binds `USH0043` (exact case) to `off`. -/
def settingsOff0043 : LinterSettings :=
  { LinterSettings.Default with RuleOverrides := [("USH0043", "off")] }

/-- The configuration payload whose override key is lower-cased. -/
def payloadLowerKey : Json :=
  .obj [("ruleOverrides", .obj [("ush0043", .str "off")])]

/-- The settings snapshot the resolver builds from `payloadLowerKey`. -/
def settingsLowerKey : LinterSettings :=
  SettingsProvider.Update LinterSettings.Default payloadLowerKey

/-- A raw USH0043 analyzer diagnostic located in `doc.cs`. -/
def rawDiag0043 : Diag :=
  { Id := "USH0043", Severity := .info, LocationPath := some "doc.cs" }

/-- Semantic-arm scenario: `SendCustomEvent("DoesNotExist")` inside an
UdonSharp behaviour declaring only `public void Foo()`. -/
def semanticMissingCtx : InvocationContext :=
  { InvokedName := "SendCustomEvent"
  , ArgumentCount := 1
  , EventArgIsStringLiteral := true
  , EventTarget := some "DoesNotExist"
  , TargetBehaviour := some
      { Name := "A", IsUdon := true
      , Methods := [{ Name := "Foo", IsPublic := true,
                      HasNetworkCallableAttr := false, ParamCount := 0 }] }
  , SyntaxCtx := { DocTypes := [] } }

/-- Syntax-only scenario: the same call when the semantic model cannot
resolve the target behaviour, with the enclosing type found by syntax. -/
def syntaxMissingCtx : InvocationContext :=
  { InvokedName := "SendCustomEvent"
  , ArgumentCount := 1
  , EventArgIsStringLiteral := true
  , EventTarget := some "DoesNotExist"
  , TargetBehaviour := none
  , SyntaxCtx :=
      { DocTypes := []
      , EnclosingType := some
          { Identifier := "A"
          , Methods := [{ Name := "Foo", IsPublic := true,
                          HasNetworkCallable := false, ParameterTypes := [] }] }
      , ArgumentCount := 1 } }

/-- A syntactic surrounding in which no target type can be identified:
the `nameof` type is absent from the document, the receiver's type is
unknown, and there is no enclosing type declaration. -/
def noTypeCtx : SyntaxOnlyContext :=
  { DocTypes := []
  , NameofTypeName := some "MissingType"
  , ReceiverTypeName := none
  , EnclosingType := none
  , ArgumentCount := 3
  , PayloadArgTypes := [some "int"] }

/-- A network-event candidate `Shoot(int n)` carrying `NetworkCallable`. -/
def candidateShoot : SyntaxMethodCandidate :=
  { Name := "Shoot", IsPublic := true, HasNetworkCallable := true,
    ParameterTypes := ["int"] }

/-- A syntactic surrounding for a numeric-alias payload check: the
enclosing type declares `Shoot(int)` and the payload argument is a cast
to `System.Int32`. -/
def aliasPayloadCtx : SyntaxOnlyContext :=
  { DocTypes := []
  , EnclosingType := some { Identifier := "A", Methods := [candidateShoot] }
  , ArgumentCount := 3
  , PayloadArgTypes := [some "System.Int32"] }

/-- A document with `is`, `as`, `try` and `throw` nodes, none of which
sits inside an UdonSharp script. -/
def nonUdonDoc : List RuntimeNode :=
  [ { Kind := .isExpression, InUdonSharpScript := false }
  , { Kind := .asExpression, InUdonSharpScript := false }
  , { Kind := .tryStatement, InUdonSharpScript := false }
  , { Kind := .throwStatement, InUdonSharpScript := false } ]

/-- C1: `GetSeverity` resolves in the order user override, profile
entry, rule default, and an unrecognised profile falls back to the
default severity. -/
theorem severity_resolution_order (rule : PolicyRuleDefinition) (profile : String)
    (overrides : List (String × String)) :
    (∀ s, lookupOrd overrides rule.Id = some s →
        rule.GetSeverity profile overrides = toSeverity s) ∧
    (lookupOrd overrides rule.Id = none →
      ∀ profiles s, rule.ProfileSeverities = some profiles →
        lookupCI profiles profile = some s →
        rule.GetSeverity profile overrides = toSeverity s) ∧
    (lookupOrd overrides rule.Id = none →
      (∀ profiles, rule.ProfileSeverities = some profiles → lookupCI profiles profile = none) →
      rule.GetSeverity profile overrides = toSeverity rule.DefaultSeverity) := by
  unfold PolicyRuleDefinition.GetSeverity
  refine ⟨?_, ?_, ?_⟩
  · intro s h
    rw [h]
  · intro h profiles s hprofiles hlookup
    simp only [h, hprofiles, hlookup]
  · intro h hnone
    cases hprofiles : rule.ProfileSeverities with
    | none => simp only [h, hprofiles]
    | some profiles => simp only [h, hprofiles, hnone profiles hprofiles]

/-- Witness for C1: an override wins, a known profile entry wins next,
and an unknown profile name yields the default severity. -/
theorem severity_resolution_order_witness :
    ruleSevEx.GetSeverity "latest" [("USH0001", "off")] = .hidden ∧
    ruleSevEx.GetSeverity "legacy_0.x" [] = .warning ∧
    ruleSevEx.GetSeverity "totally_unknown" [] = .error := by
  refine ⟨?_, ?_, ?_⟩
  · have h := (severity_resolution_order ruleSevEx "latest" [("USH0001", "off")]).1
      "off" (by decide)
    rw [h]
    decide
  · have h := (severity_resolution_order ruleSevEx "legacy_0.x" []).2.1 (by decide)
      [("legacy_0.x", "warn"), ("strict_experimental", "error")] "warn" (by decide) (by decide)
    rw [h]
    decide
  · have h := (severity_resolution_order ruleSevEx "totally_unknown" []).2.2 (by decide)
      (by intro profiles hp; cases hp; decide)
    rw [h]
    decide

/-- C10: an ID absent from the merged catalogue resolves to Warning for
every settings snapshot; it neither fails nor yields Hidden. -/
theorem unknown_rule_id_resolves_to_warning (rules : PolicyCatalogue) (id : String)
    (settings : LinterSettings) (h : lookupCI rules id = none) :
    PolicyRepository.GetSeverity rules id settings = .warning ∧
    PolicyRepository.GetSeverity rules id settings ≠ .hidden := by
  have hw : PolicyRepository.GetSeverity rules id settings = .warning := by
    unfold PolicyRepository.GetSeverity
    rw [h]
  rw [hw]
  exact ⟨rfl, by decide⟩

/-- Witness for C10 at an ID the example catalogue does not contain. -/
theorem unknown_rule_id_resolves_to_warning_witness :
    PolicyRepository.GetSeverity catalogue0043 "USH9999" LinterSettings.Default = .warning ∧
    PolicyRepository.GetSeverity catalogue0043 "USH9999" LinterSettings.Default ≠ .hidden :=
  unknown_rule_id_resolves_to_warning catalogue0043 "USH9999" LinterSettings.Default (by decide)

/-- Counterexample to C9: a `udonsharp/status` request is answered with
the method-not-found error −32601, not with the status response. -/
theorem legacy_status_alias_not_registered_cex :
    dispatchCustomRequest catalogue0043 settingsOff0043 "1.2.3" "udonsharp/status" =
      .methodNotFound (-32601) ∧
    dispatchCustomRequest catalogue0043 settingsOff0043 "1.2.3" "udonsharp/status" ≠
      dispatchCustomRequest catalogue0043 settingsOff0043 "1.2.3" "udonsharp/server/status" := by
  decide

/-- C9 as amended: only `udonsharp/server/status` is registered and
answers with the status payload; the legacy name `udonsharp/status` has
no handler and yields −32601 for every repository and settings state. -/
theorem status_method_dispatch (rules : PolicyCatalogue) (settings : LinterSettings)
    (version : String) :
    dispatchCustomRequest rules settings version "udonsharp/server/status" =
      .statusReply (ServerStatusHandler.Handle rules settings version) ∧
    registeredCustomMethods.contains "udonsharp/status" = false ∧
    dispatchCustomRequest rules settings version "udonsharp/status" =
      .methodNotFound (-32601) :=
  ⟨rfl, by decide, rfl⟩

/-- C5: when none of the three lookups of the fallback path identifies a
target type, `TryAnalyzeEventsSyntaxOnly` reports nothing at all — in
particular no USH0001. -/
theorem syntax_fallback_requires_identified_type (ctx : SyntaxOnlyContext)
    (methodName : String) (isNetworkEvent : Bool)
    (h : resolveSyntaxTargetType ctx = none) :
    (TryAnalyzeEventsSyntaxOnly ctx methodName isNetworkEvent).snd = [] ∧
    hasRule (TryAnalyzeEventsSyntaxOnly ctx methodName isNetworkEvent).snd "USH0001" = false := by
  have hmain : (TryAnalyzeEventsSyntaxOnly ctx methodName isNetworkEvent).snd = [] := by
    simp only [TryAnalyzeEventsSyntaxOnly, h]
    split <;> rfl
  rw [hmain]
  exact ⟨rfl, rfl⟩

/-- Witness for C5: a `nameof`-named type absent from the document, an
unknown receiver type, and no enclosing type declaration. -/
theorem syntax_fallback_requires_identified_type_witness :
    (TryAnalyzeEventsSyntaxOnly noTypeCtx "Shoot" true).snd = [] ∧
    hasRule (TryAnalyzeEventsSyntaxOnly noTypeCtx "Shoot" true).snd "USH0001" = false :=
  syntax_fallback_requires_identified_type noTypeCtx "Shoot" true (by decide)

/-- Counterexample to C2: a document whose every node lies outside an
UdonSharp script still receives USH0018, USH0019, USH0020 and USH0021. -/
theorem runtime_rules_fire_outside_scripts_cex :
    nonUdonDoc.all (fun n => !n.InUdonSharpScript) = true ∧
    hasRule (runtimeRestrictionAnalyzeDocument nonUdonDoc) "USH0018" = true ∧
    hasRule (runtimeRestrictionAnalyzeDocument nonUdonDoc) "USH0019" = true ∧
    hasRule (runtimeRestrictionAnalyzeDocument nonUdonDoc) "USH0020" = true ∧
    hasRule (runtimeRestrictionAnalyzeDocument nonUdonDoc) "USH0021" = true := by
  decide

/-- C2 as amended: USH0018–USH0021 are reported for every matching
node, with the enclosing-type predicate never consulted: each rule
fires exactly when a node of its kind exists, whatever the predicate. -/
theorem runtime_rules_ignore_enclosing_type (doc : List RuntimeNode) :
    hasRule (runtimeRestrictionAnalyzeDocument doc) "USH0018"
      = doc.any (fun n => n.Kind == .isExpression) ∧
    hasRule (runtimeRestrictionAnalyzeDocument doc) "USH0019"
      = doc.any (fun n => n.Kind == .asExpression) ∧
    hasRule (runtimeRestrictionAnalyzeDocument doc) "USH0020"
      = doc.any (fun n => n.Kind == .tryStatement) ∧
    hasRule (runtimeRestrictionAnalyzeDocument doc) "USH0021"
      = doc.any (fun n => n.Kind == .throwStatement || n.Kind == .throwExpression) := by
  induction doc with
  | nil => exact ⟨rfl, rfl, rfl, rfl⟩
  | cons n rest ih =>
      obtain ⟨ih1, ih2, ih3, ih4⟩ := ih
      refine ⟨?_, ?_, ?_, ?_⟩ <;>
        · simp only [runtimeRestrictionAnalyzeDocument, List.foldr_cons, hasRule,
            List.any_append, List.any_cons] at ih1 ih2 ih3 ih4 ⊢
          cases n with
          | mk kind inScript =>
              cases kind <;>
                simp_all [runtimeRestrictionNodeDiags, hasRule, runtimeRestrictionAnalyzeDocument]

/-- Counterexample to C3: in a pack file whose second rule entry lacks
`title`, the well-formed third entry `USHC` is not loaded, although the
first entry `USHA` is. -/
theorem policy_pack_missing_field_cex :
    parsedOk (TryParseRule packRuleJsonC) = true ∧
    (lookupCI (loadPackFile [] packFileEx) "USHC").isNone = true ∧
    (lookupCI (loadPackFile [] packFileEx) "USHA").isSome = true := by
  decide

/-- C3 as amended: an entry missing `id` is skipped alone, every other
entry of the file still loads; but an entry missing `title`, `message`,
`category` or `defaultSeverity` throws inside the per-file loop, so the
entries before it are kept and all entries after it are dropped. -/
theorem policy_pack_missing_field_aborts_file
    (builder : List (String × PolicyRuleDefinition)) (done rest : List Json)
    (bad skipped : Json)
    (hbad : TryParseRule bad = .error ())
    (hskip : TryParseRule skipped = .ok none) :
    loadRules builder (done ++ bad :: rest) = loadRules builder done ∧
    loadRules builder (done ++ skipped :: rest) = loadRules builder (done ++ rest) := by
  constructor
  · induction done generalizing builder with
    | nil => simp [loadRules, hbad]
    | cons e es ih =>
        simp only [List.cons_append, loadRules]
        cases he : TryParseRule e with
        | error a => rfl
        | ok o =>
            cases o with
            | none => exact ih builder
            | some r => exact ih (upsertCI builder r.Id r)
  · induction done generalizing builder with
    | nil => simp [loadRules, hskip]
    | cons e es ih =>
        simp only [List.cons_append, loadRules]
        cases he : TryParseRule e with
        | error a => rfl
        | ok o =>
            cases o with
            | none => exact ih builder
            | some r => exact ih (upsertCI builder r.Id r)

/-- Witness for C3 as amended: the `title`-less entry drops `USHC`, the
`id`-less entry drops nothing else. -/
theorem policy_pack_missing_field_aborts_file_witness :
    loadRules [] [packRuleJsonA, packRuleJsonB, packRuleJsonC] = loadRules [] [packRuleJsonA] ∧
    loadRules [] [packRuleJsonA, packRuleJsonNoId, packRuleJsonC] =
      loadRules [] [packRuleJsonA, packRuleJsonC] := by
  have h := policy_pack_missing_field_aborts_file [] [packRuleJsonA] [packRuleJsonC]
    packRuleJsonB packRuleJsonNoId rfl rfl
  exact ⟨h.1, h.2⟩

/-- Counterexample to C8: the resolver stores the payload key
`ush0043` unchanged, and the override then fails to apply to rule
`USH0043`, whose default severity is used instead of Hidden. -/
theorem rule_override_case_mismatch_cex :
    settingsLowerKey.RuleOverrides = [("ush0043", "off")] ∧
    PolicyRepository.GetSeverity catalogue0043 "USH0043" settingsLowerKey = .info ∧
    PolicyRepository.GetSeverity catalogue0043 "USH0043" settingsLowerKey ≠ .hidden := by
  decide

/-- C8 as amended: the server settings resolver stores rule-override
keys verbatim (no upper-casing), and an override whose key differs from
the rule ID — even only in letter case — behaves as if absent during
severity resolution. -/
theorem rule_override_keys_stored_verbatim :
    (∀ (pairs : List (String × String)),
      SettingsProvider.Deserialize
          (.obj [("ruleOverrides", .obj (pairs.map (fun p => (p.fst, Json.str p.snd))))]) =
        some { LinterSettings.Default with RuleOverrides := pairs }) ∧
    (∀ (rule : PolicyRuleDefinition) (profile : String) (k v : String),
      (k == rule.Id) = false →
      rule.GetSeverity profile [(k, v)] = rule.GetSeverity profile []) := by
  constructor
  · intro pairs
    have hmap : stringMapFields (pairs.map (fun p => (p.fst, Json.str p.snd))) = .ok pairs := by
      induction pairs with
      | nil => rfl
      | cons p ps ih => simp [stringMapFields, ih, Except.map]
    simp [SettingsProvider.Deserialize, Json.getProp, lookupOrd, deserializeStringMap, hmap,
      getPropertyOrDefaultString, getPropertyOrDefaultBool, LinterSettings.Default, Except.map]
  · intro rule profile k v h
    unfold PolicyRuleDefinition.GetSeverity
    have h1 : lookupOrd [(k, v)] rule.Id = none := by
      simp [lookupOrd, List.find?, h]
    have h2 : lookupOrd ([] : List (String × String)) rule.Id = none := rfl
    rw [h1, h2]

/-- Witness for C8 as amended: the lower-cased payload key survives
verbatim and the case-mismatched override leaves the severity at the
rule's own resolution. -/
theorem rule_override_keys_stored_verbatim_witness :
    SettingsProvider.Deserialize (.obj [("ruleOverrides", .obj [("ush0043", Json.str "off")])]) =
      some { LinterSettings.Default with RuleOverrides := [("ush0043", "off")] } ∧
    rule0043.GetSeverity "latest" [("ush0043", "off")] = rule0043.GetSeverity "latest" [] := by
  constructor
  · exact (rule_override_keys_stored_verbatim).1 [("ush0043", "off")]
  · exact (rule_override_keys_stored_verbatim).2 rule0043 "latest" "ush0043" "off" (by decide)

/-- Looking a key up case-insensitively only depends on its lower-cased
form. -/
theorem lookupCI_congr {α : Type} (m : List (String × α)) {k k0 : String}
    (h : strLower k = strLower k0) : lookupCI m k = lookupCI m k0 := by
  simp only [lookupCI, h]

/-- Case-insensitive lookup on a cons cell. -/
theorem lookupCI_cons {α : Type} (p : String × α) (rest : List (String × α)) (key : String) :
    lookupCI (p :: rest) key =
      if strLower p.fst = strLower key then some p.snd else lookupCI rest key := by
  by_cases h : strLower p.fst = strLower key
  · have hb : (strLower p.fst == strLower key) = true := beq_iff_eq.mpr h
    simp only [lookupCI, List.find?, hb, if_pos h, Option.map_some']
  · have hb : (strLower p.fst == strLower key) = false := by
      simp [beq_iff_eq, h]
    simp only [lookupCI, List.find?, hb, if_neg h]

/-- Case-insensitive lookup after a case-insensitive upsert. -/
theorem lookupCI_upsertCI {α : Type} (m : List (String × α)) (k key : String) (v : α) :
    lookupCI (upsertCI m k v) key =
      if strLower key = strLower k then some v else lookupCI m key := by
  induction m with
  | nil =>
      rw [upsertCI, lookupCI_cons]
      by_cases h : strLower k = strLower key
      · rw [if_pos h, if_pos h.symm]
      · rw [if_neg h, if_neg (fun hc => h hc.symm)]
  | cons p rest ih =>
      rw [upsertCI]
      by_cases h1 : strLower p.fst = strLower k
      · rw [if_pos (beq_iff_eq.mpr h1), lookupCI_cons]
        by_cases h2 : strLower p.fst = strLower key
        · rw [if_pos h2, if_pos (h2.symm.trans h1)]
        · have h3 : ¬ strLower key = strLower k := fun hc => h2 (h1.trans hc.symm)
          rw [if_neg h2, if_neg h3, lookupCI_cons, if_neg h2]
      · have h1' : (strLower p.fst == strLower k) = false := by
          simp [beq_iff_eq, h1]
        rw [if_neg (by rw [h1']; exact Bool.false_ne_true), lookupCI_cons, ih, lookupCI_cons]
        by_cases h2 : strLower p.fst = strLower key
        · have h3 : ¬ strLower key = strLower k := fun hc => h1 (h2.trans hc)
          rw [if_pos h2, if_neg h3, if_pos h2]
        · simp only [if_neg h2]

/-- Folding upserts over entries preserves a binding already equal to
the value every colliding entry would write. -/
theorem lookupCI_foldUpsert_preserve {f : String → ReportDiagnostic} {key : String}
    {v : ReportDiagnostic}
    (hf : ∀ id, strLower id = strLower key → f id = v)
    (l : List (String × PolicyRuleDefinition)) (b : List (String × ReportDiagnostic))
    (hb : lookupCI b key = some v) :
    lookupCI (l.foldl (fun acc e => upsertCI acc e.snd.Id (f e.snd.Id)) b) key = some v := by
  induction l generalizing b with
  | nil => exact hb
  | cons e es ih =>
      rw [List.foldl_cons]
      apply ih
      rw [lookupCI_upsertCI]
      by_cases h : strLower key = strLower e.snd.Id
      · rw [if_pos h, hf e.snd.Id h.symm]
      · rw [if_neg h]
        exact hb

/-- Folding upserts over entries establishes the binding as soon as one
entry's ID matches the key case-insensitively, provided every ID in the
key's case class is sent to the same value. -/
theorem lookupCI_foldUpsert_sets {f : String → ReportDiagnostic} {key : String}
    {v : ReportDiagnostic}
    (hf : ∀ id, strLower id = strLower key → f id = v)
    (l : List (String × PolicyRuleDefinition)) (b : List (String × ReportDiagnostic))
    (hex : ∃ e ∈ l, strLower e.snd.Id = strLower key) :
    lookupCI (l.foldl (fun acc e => upsertCI acc e.snd.Id (f e.snd.Id)) b) key = some v := by
  induction l generalizing b with
  | nil => exact absurd hex (by simp)
  | cons e es ih =>
      rw [List.foldl_cons]
      by_cases h : strLower e.snd.Id = strLower key
      · apply lookupCI_foldUpsert_preserve hf es _
        rw [lookupCI_upsertCI, if_pos h.symm, hf e.snd.Id h]
      · obtain ⟨e0, he0, h0⟩ := hex
        have he0' : e0 ∈ es := by
          cases List.mem_cons.mp he0 with
          | inl heq => exact absurd (heq ▸ h0) h
          | inr hmem => exact hmem
        exact ih _ ⟨e0, he0', h0⟩

/-- When the catalogue binds `USH0043` (keys agreeing with rule IDs, as
the loader guarantees) and the user override maps the rule's ID to
`off`, the compiled diagnostic-options map sends `USH0043` to
`ReportDiagnostic.Hidden` — never to `Suppress`. -/
theorem buildOptions_ush0043_hidden (rules : PolicyCatalogue) (settings : LinterSettings)
    (rule : PolicyRuleDefinition)
    (hwf : ∀ e ∈ rules, e.fst = e.snd.Id)
    (hrule : lookupCI rules "USH0043" = some rule)
    (hov : lookupOrd settings.RuleOverrides rule.Id = some "off") :
    lookupCI (BuildDiagnosticOptions rules settings) "USH0043" = some .reportHidden := by
  obtain ⟨pr, hfind, hsnd⟩ := Option.map_eq_some'.mp hrule
  have hmem : pr ∈ rules := List.mem_of_find?_eq_some hfind
  have hkey : strLower pr.fst = strLower "USH0043" := by
    have := List.find?_some hfind
    exact beq_iff_eq.mp this
  have hid : strLower pr.snd.Id = strLower "USH0043" := by
    rw [← hwf pr hmem]
    exact hkey
  have hf : ∀ id, strLower id = strLower "USH0043" →
      SeverityMapper.ToReportDiagnostic
        (PolicyRepository.GetSeverity rules id settings) = .reportHidden := by
    intro id hcase
    have hlook : lookupCI rules id = some rule :=
      (lookupCI_congr rules hcase).trans hrule
    unfold PolicyRepository.GetSeverity PolicyRuleDefinition.GetSeverity
    simp only [hlook, hov]
    rfl
  exact lookupCI_foldUpsert_sets hf rules [] ⟨pr, hmem, hid⟩

/-- A diagnostic whose rule is mapped to `ReportDiagnostic.Hidden` is
not removed by the pipeline: it reaches the published set with its code
intact and LSP severity Hint. -/
theorem publish_keeps_hidden (options : List (String × ReportDiagnostic))
    (raw : List Diag) (d : Diag) (docPath : String)
    (hopt : lookupCI options d.Id = some .reportHidden)
    (hd : d ∈ raw) (hloc : d.LocationPath = some docPath) :
    ({ Code := d.Id, Severity := .lspHint, Source := "UdonSharp" } : LspDiagnostic) ∈
      DiagnosticsPublisher.Publish
        ((applyDiagnosticOptions options raw).filter
          (fun x => x.LocationPath == none || x.LocationPath == some docPath)) := by
  have h1 : ({ d with Severity := .hidden } : Diag) ∈ applyDiagnosticOptions options raw := by
    apply List.mem_filterMap.mpr
    exact ⟨d, hd, by rw [hopt]⟩
  have h2 : ({ d with Severity := .hidden } : Diag) ∈
      (applyDiagnosticOptions options raw).filter
        (fun x => x.LocationPath == none || x.LocationPath == some docPath) := by
    apply List.mem_filter.mpr
    refine ⟨h1, ?_⟩
    simp [hloc]
  have h3 := List.mem_map_of_mem ToLspDiagnostic h2
  exact h3

/-- Counterexample to C4: with the override `USH0043 → off` in force,
publishing the analysis of a document carrying a USH0043 diagnostic
still delivers an entry with code USH0043 to the client. -/
theorem ush0043_off_still_published_cex :
    lookupOrd settingsOff0043.RuleOverrides "USH0043" = some "off" ∧
    hasCode (publishForDocument catalogue0043 settingsOff0043 "doc.cs" [rawDiag0043])
      "USH0043" = true := by
  decide

/-- C4 as amended: the override `USH0043 → off` resolves the rule to the
Hidden severity, and the published set still contains the USH0043
entry, delivered at LSP severity Hint — hiding does not remove it. -/
theorem ush0043_off_hidden_published_as_hint
    (rules : PolicyCatalogue) (rule : PolicyRuleDefinition) (settings : LinterSettings)
    (raw : List Diag) (d : Diag) (docPath : String)
    (hwf : ∀ e ∈ rules, e.fst = e.snd.Id)
    (hrule : lookupCI rules "USH0043" = some rule)
    (hov : lookupOrd settings.RuleOverrides rule.Id = some "off")
    (hd : d ∈ raw) (hdid : d.Id = "USH0043") (hloc : d.LocationPath = some docPath) :
    PolicyRepository.GetSeverity rules "USH0043" settings = .hidden ∧
    ({ Code := "USH0043", Severity := .lspHint, Source := "UdonSharp" } : LspDiagnostic) ∈
      publishForDocument rules settings docPath raw := by
  constructor
  · unfold PolicyRepository.GetSeverity PolicyRuleDefinition.GetSeverity
    simp only [hrule, hov]
    rfl
  · have hopt := buildOptions_ush0043_hidden rules settings rule hwf hrule hov
    have hopt' : lookupCI (BuildDiagnosticOptions rules settings) d.Id = some .reportHidden := by
      rw [hdid]
      exact hopt
    have h := publish_keeps_hidden (BuildDiagnosticOptions rules settings) raw d docPath
      hopt' hd hloc
    rw [hdid] at h
    exact h

/-- Witness for C4 as amended at the concrete USH0043 scenario. -/
theorem ush0043_off_hidden_published_as_hint_witness :
    PolicyRepository.GetSeverity catalogue0043 "USH0043" settingsOff0043 = .hidden ∧
    ({ Code := "USH0043", Severity := .lspHint, Source := "UdonSharp" } : LspDiagnostic) ∈
      publishForDocument catalogue0043 settingsOff0043 "doc.cs" [rawDiag0043] := by
  apply ush0043_off_hidden_published_as_hint catalogue0043 rule0043 settingsOff0043
    [rawDiag0043] rawDiag0043 "doc.cs"
  · intro e he
    simp only [catalogue0043, List.mem_singleton] at he
    rw [he]
    rfl
  · decide
  · decide
  · exact List.mem_singleton.mpr rfl
  · rfl
  · rfl

/-- `hasRule` distributes over appended report lists. -/
theorem hasRule_append (a b : List ReportedDiag) (r : String) :
    hasRule (a ++ b) r = (hasRule a r || hasRule b r) := by
  simp [hasRule, List.any_append]

/-- A conditional single-rule report never matches a different rule ID. -/
theorem hasRule_ite_single {c : Prop} [Decidable c] {r0 r : String} {n : Nat}
    (h : (r0 == r) = false) :
    hasRule (if c then [{ Rule := r0, Arg := n }] else []) r = false := by
  split <;> simp [hasRule, h]

/-- C6: a SendCustomEvent-family call whose method-name argument is a
bare string literal naming a method absent from the target type reports
both USH0001 and USH0043 — in the semantic arm (first conjunct) and in
the syntax-only arm (second conjunct). -/
theorem ush0001_and_ush0043_both_fire :
    (∀ (ctx : InvocationContext) (behaviour : BehaviourModel) (targetName : String),
      CustomEventMethodNames.contains ctx.InvokedName = true →
      NetworkEventMethodNames.contains ctx.InvokedName = false →
      ctx.ArgumentCount ≠ 0 →
      ctx.EventArgIsStringLiteral = true →
      ctx.EventTarget = some targetName →
      ctx.ResolvedMethod = none →
      ctx.ResolvedMethodBehaviour = none →
      ctx.TargetBehaviour = some behaviour →
      behaviour.IsUdon = true →
      behaviour.Methods.filter (fun m => m.Name == targetName) = [] →
      hasRule (AnalyzeInvocation ctx) "USH0001" = true ∧
      hasRule (AnalyzeInvocation ctx) "USH0043" = true) ∧
    (∀ (ctx : InvocationContext) (targetType : TypeDeclModel) (targetName : String),
      CustomEventMethodNames.contains ctx.InvokedName = true →
      NetworkEventMethodNames.contains ctx.InvokedName = false →
      ctx.ArgumentCount ≠ 0 →
      ctx.EventArgIsStringLiteral = true →
      ctx.EventTarget = some targetName →
      ctx.TargetBehaviour = none →
      strIsEmpty targetName = false →
      resolveSyntaxTargetType ctx.SyntaxCtx = some targetType →
      targetType.Methods.filter (fun m => m.Name == targetName) = [] →
      hasRule (AnalyzeInvocation ctx) "USH0001" = true ∧
      hasRule (AnalyzeInvocation ctx) "USH0043" = true) := by
  constructor
  · intro ctx behaviour targetName hcustom hnet hargs hlit htarget hrm hrmb htb hudon hfilter
    have hargs' : (ctx.ArgumentCount == 0) = false := by
      simp [hargs]
    have hle : ¬ ctx.ArgumentCount ≤ 0 := by omega
    simp only [AnalyzeInvocation, hcustom, hnet, hargs', htarget, htb, hudon,
      Bool.or_false, Bool.not_true, Bool.false_eq_true, if_false, if_true, if_neg hle]
    simp only [analyzeSemanticArm, hrm, hrmb, hfilter, hlit]
    constructor <;> rfl
  · intro ctx targetType targetName hcustom hnet hargs hlit htarget htb hempty hres hfilter
    have hargs' : (ctx.ArgumentCount == 0) = false := by
      simp [hargs]
    have hle : ¬ ctx.ArgumentCount ≤ 0 := by omega
    simp only [AnalyzeInvocation, hcustom, hnet, hargs', htarget, htb,
      Bool.or_false, Bool.not_true, Bool.false_eq_true, if_false, if_true, if_neg hle]
    simp only [TryAnalyzeEventsSyntaxOnly, hempty, hres, hfilter, hlit]
    constructor <;> rfl

/-- Witness for C6 at the two concrete `SendCustomEvent("DoesNotExist")`
scenarios. -/
theorem ush0001_and_ush0043_both_fire_witness :
    (hasRule (AnalyzeInvocation semanticMissingCtx) "USH0001" = true ∧
     hasRule (AnalyzeInvocation semanticMissingCtx) "USH0043" = true) ∧
    (hasRule (AnalyzeInvocation syntaxMissingCtx) "USH0001" = true ∧
     hasRule (AnalyzeInvocation syntaxMissingCtx) "USH0043" = true) := by
  constructor
  · exact (ush0001_and_ush0043_both_fire).1 semanticMissingCtx
      { Name := "A", IsUdon := true
      , Methods := [{ Name := "Foo", IsPublic := true,
                      HasNetworkCallableAttr := false, ParamCount := 0 }] }
      "DoesNotExist" rfl rfl (by decide) rfl rfl rfl rfl rfl rfl (by decide)
  · exact (ush0001_and_ush0043_both_fire).2 syntaxMissingCtx
      { Identifier := "A"
      , Methods := [{ Name := "Foo", IsPublic := true,
                      HasNetworkCallable := false, ParameterTypes := [] }] }
      "DoesNotExist" rfl rfl (by decide) rfl rfl rfl rfl (by decide) (by decide)

/-- C7: the fallback's type-name comparison rewrites `System.*` numeric
aliases to keyword forms and treats all numeric primitives as mutually
compatible, and a network call whose payload matches a candidate up to
that compatibility triggers no USH0005. -/
theorem numeric_alias_payloads_no_ush0005 :
    (∀ parameterType argumentType,
      IsNumericAlias (normalizeTypeName parameterType) = true →
      IsNumericAlias (normalizeTypeName argumentType) = true →
      TypeNamesCompatibleNormalized parameterType argumentType = true) ∧
    (normalizeTypeName "System.Int32" = "int" ∧ normalizeTypeName "System.Int64" = "long" ∧
     normalizeTypeName "System.UInt32" = "uint" ∧ normalizeTypeName "System.UInt64" = "ulong" ∧
     normalizeTypeName "System.Single" = "float" ∧ normalizeTypeName "System.Double" = "double" ∧
     normalizeTypeName "System.Decimal" = "decimal") ∧
    (∀ (ctx : SyntaxOnlyContext) (targetType : TypeDeclModel)
       (candidate : SyntaxMethodCandidate) (methodName : String),
      resolveSyntaxTargetType ctx = some targetType →
      candidate ∈ targetType.Methods →
      (candidate.Name == methodName) = true →
      ctx.ArgumentCount = candidate.ParameterTypes.length + 2 →
      PayloadMatchesTypesSyntaxOnly ctx.PayloadArgTypes candidate.ParameterTypes = true →
      hasRule (TryAnalyzeEventsSyntaxOnly ctx methodName true).snd "USH0005" = false) := by
  refine ⟨?_, by decide, ?_⟩
  · intro parameterType argumentType hp ha
    simp [TypeNamesCompatibleNormalized, hp, ha]
  · intro ctx targetType candidate methodName hres hmem hname hcount hcompat
    cases hEmpty : strIsEmpty methodName with
    | true => simp [TryAnalyzeEventsSyntaxOnly, hEmpty, hasRule]
    | false =>
        have hcand : candidate ∈ targetType.Methods.filter (fun m => m.Name == methodName) :=
          List.mem_filter.mpr ⟨hmem, hname⟩
        simp only [TryAnalyzeEventsSyntaxOnly, hEmpty, hres, Bool.false_eq_true, if_false]
        rw [hasRule_append]
        have hleft :
            hasRule
              (if (targetType.Methods.filter (fun m => m.Name == methodName)).isEmpty then
                 [{ Rule := "USH0001" : ReportedDiag }]
               else if !((targetType.Methods.filter (fun m => m.Name == methodName)).any
                   (fun c => c.IsPublic)) then
                 [{ Rule := "USH0002" : ReportedDiag }]
               else []) "USH0005" = false := by
          split
          · decide
          · split
            · decide
            · decide
        rw [hleft, if_true]
        unfold syntaxOnlyNetworkChecks
        rw [hasRule_append, hasRule_append, hasRule_append,
          hasRule_ite_single (by decide), hasRule_ite_single (by decide)]
        have hd5 :
            hasRule
              (if ctx.ArgumentCount > 2 then
                 match (targetType.Methods.filter (fun m => m.Name == methodName)).filter
                     (fun c => c.ParameterTypes.length == ctx.ArgumentCount - 2) with
                 | [] => [{ Rule := "USH0005", Arg := 0 }]
                 | first :: rest =>
                     if (first :: rest).any
                         (fun c => PayloadMatchesTypesSyntaxOnly ctx.PayloadArgTypes
                           c.ParameterTypes) then
                       []
                     else
                       match firstMismatchIndex 1 ctx.PayloadArgTypes first.ParameterTypes with
                       | some index => [{ Rule := "USH0005", Arg := index }]
                       | none => []
               else []) "USH0005" = false := by
          by_cases hgt : ctx.ArgumentCount > 2
          · rw [if_pos hgt]
            have hlen : (candidate.ParameterTypes.length == ctx.ArgumentCount - 2) = true := by
              have : candidate.ParameterTypes.length = ctx.ArgumentCount - 2 := by omega
              simp [this]
            have hmatching : candidate ∈
                (targetType.Methods.filter (fun m => m.Name == methodName)).filter
                  (fun c => c.ParameterTypes.length == ctx.ArgumentCount - 2) :=
              List.mem_filter.mpr ⟨hcand, hlen⟩
            cases hm : (targetType.Methods.filter (fun m => m.Name == methodName)).filter
                (fun c => c.ParameterTypes.length == ctx.ArgumentCount - 2) with
            | nil =>
                rw [hm] at hmatching
                exact absurd hmatching (List.not_mem_nil candidate)
            | cons first rest =>
                rw [hm] at hmatching
                have hany : ((first :: rest).any
                    (fun c => PayloadMatchesTypesSyntaxOnly ctx.PayloadArgTypes
                      c.ParameterTypes)) = true :=
                  List.any_eq_true.mpr ⟨candidate, hmatching, hcompat⟩
                simp [hany, hasRule]
          · rw [if_neg hgt]
            decide
        rw [hd5, hasRule_ite_single (by decide)]
        decide

/-- Witness for C7: a `Shoot(int)` candidate called with a payload
classified as `System.Int32`. -/
theorem numeric_alias_payloads_no_ush0005_witness :
    TypeNamesCompatibleNormalized "int" "System.Int32" = true ∧
    hasRule (TryAnalyzeEventsSyntaxOnly aliasPayloadCtx "Shoot" true).snd "USH0005" = false := by
  constructor
  · exact (numeric_alias_payloads_no_ush0005).1 "int" "System.Int32" (by decide) (by decide)
  · exact (numeric_alias_payloads_no_ush0005).2.2 aliasPayloadCtx
      { Identifier := "A", Methods := [candidateShoot] } candidateShoot "Shoot"
      (by decide) (by decide) (by decide) (by decide) (by decide)

end UdonSharpLinter
